import Mathlib

/-!
The Exporter of sql_exporter (`exporter.go`).

A shallow embedding of `NewExporter`, `Exporter.Describe` and `Exporter.Collect`.

* A Go pointer that may be nil (`*Job`, `*Query`, `*prometheus.Desc`, a nil
  `cron.Schedule` interface value) is an `Option`.
* A `for _, x := range xs` loop is a left fold of its body over `xs`.
* Sending on the channel `ch` appends to the list of values sent so far.
* Writing to the logger appends a record to the list of records written so far.
* `go job.ExecutePeriodically()` appends the job to the list of started runners.
-/

namespace SqlExporter

/-! ## Data model -/

/-- Modelled from the spec: the metric descriptor (`prometheus.Desc`) is declared outside
`exporter.go`; it is an immutable shape declaration made of a name, a help text and label
names. -/
structure Desc where
  fqName : String
  help : String
  variableLabels : List String
deriving DecidableEq, Repr

/-- Modelled from the spec: one metric sample (`prometheus.Metric`) is declared outside
`exporter.go`; it is one observation made of label values and a numeric value. -/
structure Metric where
  labelValues : List String
  value : Int
deriving DecidableEq, Repr

/-- Modelled from the spec: the `Query` type is declared outside `exporter.go`, which reads
its fields `Name`, `desc` (possibly nil) and `metrics`; `metrics` is the two-level ordered
sample structure, a sequence of groups of samples. -/
structure Query where
  Name : String
  desc : Option Desc
  metrics : List (List Metric)
deriving DecidableEq, Repr

/-- The value behind the `cron.Schedule` interface of the cron library: the parsed
expression. -/
structure Schedule where
  expr : String
deriving DecidableEq, Repr

/-- Modelled from the spec: the type of `Job.CronSchedule` is declared outside `exporter.go`,
which reads its fields `schedule` (possibly nil) and `definition`. -/
structure cronSchedule where
  definition : String
  schedule : Option Schedule
deriving DecidableEq, Repr

/-- Modelled from the spec: the `Job` type is declared outside `exporter.go`, which reads its
fields `Name`, `CronSchedule`, `Interval` and `Queries` (a sequence of possibly nil query
pointers). -/
structure Job where
  Name : String
  CronSchedule : cronSchedule
  Interval : Nat
  Queries : List (Option Query)
deriving DecidableEq, Repr

/-- Severity of a log record (`level.Error`, `level.Warn`, `level.Info`). -/
inductive Level where
  | Error
  | Warn
  | Info
deriving DecidableEq, Repr

/-- A value logged under a key. -/
inductive LogValue where
  | str (s : String)
  | dur (d : Nat)
deriving DecidableEq, Repr

/-- One call of `level.X(logger).Log(k1, v1, k2, v2, ...)`. -/
structure LogRecord where
  level : Level
  keyvals : List (String × LogValue)
deriving DecidableEq, Repr

/-- The `*cron.Cron` of the cron library, as far as `exporter.go` drives it: `cron.New()`
has no entries and is not running, `Schedule` adds an entry, `Start` sets it running. -/
structure Cron where
  entries : List (Schedule × Job)
  running : Bool
deriving DecidableEq, Repr

/-- The `Exporter` struct: the job registry and the cron scheduler. The `logger` field is a
handle to an output sink; the records written to it are threaded explicitly. -/
structure Exporter where
  jobs : List (Option Job)
  cronScheduler : Cron
deriving DecidableEq, Repr

/-! ## Describe and Collect -/

/-- State threaded through one `Describe` or `Collect` call: the receiver `e`, the values
sent on `ch` by the call, and the records the call wrote to `e.logger`, both in order. -/
structure Scrape (α : Type) where
  e : Exporter
  ch : List α
  log : List LogRecord
deriving DecidableEq, Repr

/-- The record written at `exporter.go:69`. -/
def noDescriptorRecord (query : Query) : LogRecord :=
  { level := Level.Error,
    keyvals := [("msg", LogValue.str "Query has no descriptor"),
                ("query", LogValue.str query.Name)] }

/-- Body of the inner loop of `Describe` (`exporter.go:64-73`). -/
def describeQuery (s : Scrape Desc) (query : Option Query) : Scrape Desc :=
  match query with
  | none => s
  | some query =>
    match query.desc with
    | none => { s with log := s.log ++ [noDescriptorRecord query] }
    | some desc => { s with ch := s.ch ++ [desc] }

/-- Body of the outer loop of `Describe` (`exporter.go:60-74`). -/
def describeJob (s : Scrape Desc) (job : Option Job) : Scrape Desc :=
  match job with
  | none => s
  | some job => job.Queries.foldl describeQuery s

/-- The method `(e *Exporter) Describe(ch)`, started with nothing sent and nothing logged. -/
def Describe (e : Exporter) : Scrape Desc :=
  e.jobs.foldl describeJob { e := e, ch := [], log := [] }

/-- Body of the loop over one group of samples in `Collect` (`exporter.go:88-90`). -/
def collectMetric (s : Scrape Metric) (metric : Metric) : Scrape Metric :=
  { s with ch := s.ch ++ [metric] }

/-- Body of the loop over the groups of a query in `Collect` (`exporter.go:87-91`). -/
def collectMetrics (s : Scrape Metric) (metrics : List Metric) : Scrape Metric :=
  metrics.foldl collectMetric s

/-- Body of the loop over the queries of a job in `Collect` (`exporter.go:83-92`). -/
def collectQuery (s : Scrape Metric) (query : Option Query) : Scrape Metric :=
  match query with
  | none => s
  | some query => query.metrics.foldl collectMetrics s

/-- Body of the outer loop of `Collect` (`exporter.go:79-93`). -/
def collectJob (s : Scrape Metric) (job : Option Job) : Scrape Metric :=
  match job with
  | none => s
  | some job => job.Queries.foldl collectQuery s

/-- The method `(e *Exporter) Collect(ch)`, started with nothing sent and nothing logged. -/
def Collect (e : Exporter) : Scrape Metric :=
  e.jobs.foldl collectJob { e := e, ch := [], log := [] }

/-! ## Reference enumerations, written from the specification -/

/-- The jobs of the registry, in registry order (a nil entry is no job). -/
def registeredJobs (e : Exporter) : List Job :=
  e.jobs.reduceOption

/-- The queries of a job, in query order (a nil entry is no query). -/
def jobQueries (job : Job) : List Query :=
  job.Queries.reduceOption

/-- All queries of all registered jobs, in job-then-query order. -/
def allQueries (e : Exporter) : List Query :=
  (registeredJobs e).flatMap jobQueries

/-- Specification of `Describe`: over the jobs in registry order and each job's queries in
query order, keep the descriptor of a query that has one and drop the query otherwise. -/
def describeSpec (e : Exporter) : List Desc :=
  (registeredJobs e).flatMap (fun job => (jobQueries job).filterMap (fun query => query.desc))

/-- Specification of `Collect`: over the jobs in registry order and each job's queries in
query order, the query's groups of samples flattened group by group. -/
def collectSpec (e : Exporter) : List Metric :=
  (registeredJobs e).flatMap (fun job => (jobQueries job).flatMap (fun query => query.metrics.flatten))

/-- Total number of samples stored in the registry. -/
def storedSamples (e : Exporter) : Nat :=
  ((registeredJobs e).map (fun job =>
    ((jobQueries job).map (fun query => (query.metrics.map List.length).sum)).sum)).sum

/-- The records `Describe` is specified to write: one per query without descriptor, naming
the query, in job-then-query order. -/
def describeLogSpec (e : Exporter) : List LogRecord :=
  ((allQueries e).filter (fun query => query.desc.isNone)).map noDescriptorRecord

/-- The registry after the stored samples of every query were replaced, query by query, by
`f query`, as executions of the jobs do. -/
def withSamples (f : Query → List (List Metric)) (e : Exporter) : Exporter :=
  { e with jobs := e.jobs.map (Option.map (fun job =>
      { job with Queries := job.Queries.map (Option.map (fun query =>
          { query with metrics := f query })) })) }

/-- The registry without the queries that have no descriptor. -/
def describedOnly (e : Exporter) : Exporter :=
  { e with jobs := e.jobs.map (Option.map (fun job =>
      { job with Queries := job.Queries.filter (fun query =>
          (query.bind (fun query => query.desc)).isSome) })) }

/-- Every sample `Collect` emits comes from a query of a registered job whose descriptor
`Describe` emits, and the queries without descriptor are excluded from what `Collect`
emits. -/
def CollectWithinDescribe (e : Exporter) : Prop :=
  (∀ metric ∈ (Collect e).ch, ∃ job, some job ∈ e.jobs ∧ ∃ query, some query ∈ job.Queries ∧
    metric ∈ query.metrics.flatten ∧ ∃ desc, query.desc = some desc ∧ desc ∈ (Describe e).ch) ∧
  (Collect e).ch = (Collect (describedOnly e)).ch

/-- Every query without descriptor holds no sample. -/
def UndescribedEmpty (e : Exporter) : Prop :=
  ∀ job, some job ∈ e.jobs → ∀ query, some query ∈ job.Queries →
    query.desc = none → query.metrics.flatten = []

/-! ## Construction -/

/-- Modelled from the spec: the result type of the configuration reader `Read` is declared
outside `exporter.go`, which reads its fields `Jobs` (possibly nil job pointers, in
configuration order) and `Queries` (the shared query definitions). -/
structure Config where
  Jobs : List (Option Job)
  Queries : List (String × String)
deriving DecidableEq, Repr

/-- What a call `job.Init(logger, cfg.Queries)` leaves behind: the job as `Init` left it
(the method has a pointer receiver) and the returned error, `none` for nil. -/
structure InitResult where
  job : Job
  err : Option String
deriving DecidableEq, Repr

/-- State threaded through `NewExporter`: the exporter under construction, the jobs `Init`
was called on, the jobs an interval runner was started for, and the records written to the
logger, all in order. -/
structure Startup where
  exp : Exporter
  inits : List Job
  runners : List Job
  log : List LogRecord
deriving DecidableEq, Repr

/-- The result of `NewExporter`: the returned pair `(*Exporter, error)` and the effects of the
call. -/
structure Outcome where
  exp : Option Exporter
  err : Option String
  inits : List Job
  runners : List Job
  log : List LogRecord
deriving DecidableEq, Repr

/-- The record written at `exporter.go:42`. -/
def skippingRecord (err : String) (job : Job) : LogRecord :=
  { level := Level.Warn,
    keyvals := [("msg", LogValue.str "Skipping job. Failed to initialize"),
                ("err", LogValue.str err),
                ("job", LogValue.str job.Name)] }

/-- The record written at `exporter.go:48`. -/
def scheduledRecord (job : Job) : LogRecord :=
  { level := Level.Info,
    keyvals := [("msg", LogValue.str "Scheduled CRON job"),
                ("name", LogValue.str job.Name),
                ("cron_schedule", LogValue.str job.CronSchedule.definition)] }

/-- The record written at `exporter.go:51`. -/
def startedRecord (job : Job) : LogRecord :=
  { level := Level.Info,
    keyvals := [("msg", LogValue.str "Started periodically execution of job"),
                ("name", LogValue.str job.Name),
                ("interval", LogValue.dur job.Interval)] }

/-- The method `(c *Cron) Schedule(schedule, cmd)` on a scheduler that is not running. -/
def Cron.Schedule (c : Cron) (schedule : Schedule) (cmd : Job) : Cron :=
  { c with entries := c.entries ++ [(schedule, cmd)] }

/-- The method `(c *Cron) Start()`. -/
def Cron.Start (c : Cron) : Cron :=
  { c with running := true }

/-- Body of the dispatch loop of `NewExporter` (`exporter.go:36-53`). `Init` stands for the
method `Job.Init`, applied to the shared query definitions and the job. -/
def dispatchJob (Init : List (String × String) → Job → InitResult)
    (queries : List (String × String)) (s : Startup) (job : Option Job) : Startup :=
  match job with
  | none => s
  | some job =>
    let r := Init queries job
    let s := { s with inits := s.inits ++ [job] }
    match r.err with
    | some err => { s with log := s.log ++ [skippingRecord err r.job] }
    | none =>
      let job := r.job
      let s := { s with exp := { s.exp with jobs := s.exp.jobs ++ [some job] } }
      match job.CronSchedule.schedule with
      | some schedule =>
        { s with
          exp := { s.exp with cronScheduler := s.exp.cronScheduler.Schedule schedule job },
          log := s.log ++ [scheduledRecord job] }
      | none =>
        { s with runners := s.runners ++ [job], log := s.log ++ [startedRecord job] }

/-- The path `NewExporter` reads (`exporter.go:19-21`). -/
def configPath (configFile : String) : String :=
  if configFile = "" then "config.yml" else configFile

/-- The function `NewExporter(logger, configFile)`. `Read` stands for the configuration
reader and `Init` for the method `Job.Init`, both declared outside `exporter.go`. -/
def NewExporter (Read : String → Except String Config)
    (Init : List (String × String) → Job → InitResult) (configFile : String) : Outcome :=
  match Read (configPath configFile) with
  | Except.error err => { exp := none, err := some err, inits := [], runners := [], log := [] }
  | Except.ok cfg =>
    let exp : Exporter := { jobs := [], cronScheduler := { entries := [], running := false } }
    let s := cfg.Jobs.foldl (dispatchJob Init cfg.Queries)
      { exp := exp, inits := [], runners := [], log := [] }
    { exp := some { s.exp with cronScheduler := s.exp.cronScheduler.Start },
      err := none, inits := s.inits, runners := s.runners, log := s.log }

/-- The configured jobs that are not nil and whose `Init` returns no error, in configuration
order. -/
def initOk (Init : List (String × String) → Job → InitResult) (cfg : Config) : List Job :=
  cfg.Jobs.reduceOption.filter (fun job => (Init cfg.Queries job).err.isNone)

/-- The record `NewExporter` writes for a job that is not nil. -/
def startupRecord (Init : List (String × String) → Job → InitResult)
    (queries : List (String × String)) (job : Job) : LogRecord :=
  match (Init queries job).err with
  | some err => skippingRecord err (Init queries job).job
  | none =>
    match (Init queries job).job.CronSchedule.schedule with
    | some _ => scheduledRecord (Init queries job).job
    | none => startedRecord (Init queries job).job

/-- The configuration without its nil job entries. -/
def dropNil (cfg : Config) : Config :=
  { cfg with Jobs := cfg.Jobs.filter (fun job => job.isSome) }

/-- The configuration reduced to the jobs that are not nil and whose `Init` returns no
error. -/
def keepInitOk (Init : List (String × String) → Job → InitResult) (cfg : Config) : Config :=
  { cfg with Jobs := (initOk Init cfg).map some }

/-! ## Example data -/

/-- A sample. -/
def upMetric : Metric := { labelValues := ["db1"], value := 1 }

/-- A second sample. -/
def rowsMetric : Metric := { labelValues := ["db2"], value := 7 }

/-- A descriptor. -/
def upDesc : Desc := { fqName := "sql_up", help := "up", variableLabels := ["host"] }

/-- A query that has a descriptor and two groups of samples. -/
def upQuery : Query := { Name := "up", desc := some upDesc, metrics := [[upMetric], [rowsMetric, upMetric]] }

/-- A query without descriptor that holds a sample. -/
def orphanQuery : Query := { Name := "rows", desc := none, metrics := [[rowsMetric]] }

/-- A query without descriptor and without samples. -/
def blankQuery : Query := { Name := "blank", desc := none, metrics := [] }

/-- An interval job. -/
def jobA : Job :=
  { Name := "A", CronSchedule := { definition := "", schedule := none }, Interval := 1,
    Queries := [some upQuery, none, some blankQuery] }

/-- A cron job. -/
def jobB : Job :=
  { Name := "B", CronSchedule := { definition := "*/5 * * * * *", schedule := some { expr := "*/5 * * * * *" } },
    Interval := 0, Queries := [some orphanQuery] }

/-- A job whose `Init` fails in the example. -/
def jobC : Job :=
  { Name := "C", CronSchedule := { definition := "", schedule := none }, Interval := 3,
    Queries := [] }

/-- An example `Init`: fails on the job named `C` and succeeds, leaving the job as it is,
on every other job. -/
def exampleInit (_queries : List (String × String)) (job : Job) : InitResult :=
  if job.Name = "C" then { job := job, err := some "unknown query" } else { job := job, err := none }

/-- An example configuration: three jobs and a nil entry. -/
def exampleConfig : Config :=
  { Jobs := [some jobA, none, some jobC, some jobB], Queries := [] }

/-- A configuration whose only job entry is nil. -/
def nilConfig : Config :=
  { Jobs := [none], Queries := [] }

/-- An example reader: only `config.yml` can be read. -/
def exampleRead (path : String) : Except String Config :=
  if path = "config.yml" then Except.ok exampleConfig else Except.error "no such file"

/-- A registry holding the two example jobs and a nil entry. -/
def exampleExporter : Exporter :=
  { jobs := [some jobA, none, some jobB], cronScheduler := { entries := [], running := true } }

/-- A registry whose only query has samples and no descriptor. -/
def orphanExporter : Exporter :=
  { jobs := [some jobB], cronScheduler := { entries := [], running := true } }

/-- A registry in which every query without descriptor holds no sample. -/
def tidyExporter : Exporter :=
  { jobs := [some jobA, none], cronScheduler := { entries := [], running := true } }

end SqlExporter

namespace SqlExporter

/-! ## Describe -/

theorem foldl_describeQuery (queries : List (Option Query)) (s : Scrape Desc) :
    queries.foldl describeQuery s =
      { e := s.e,
        ch := s.ch ++ queries.reduceOption.filterMap (fun query => query.desc),
        log := s.log ++
          (queries.reduceOption.filter (fun query => query.desc.isNone)).map noDescriptorRecord } := by
  induction queries generalizing s with
  | nil => simp
  | cons q rest ih =>
    rw [List.foldl_cons, ih]
    cases q with
    | none => simp [describeQuery, List.reduceOption_cons_of_none]
    | some q =>
      cases hd : q.desc <;> simp [describeQuery, hd, List.reduceOption_cons_of_some]

theorem foldl_describeJob (jobs : List (Option Job)) (s : Scrape Desc) :
    jobs.foldl describeJob s =
      { e := s.e,
        ch := s.ch ++ jobs.reduceOption.flatMap
          (fun job => (jobQueries job).filterMap (fun query => query.desc)),
        log := s.log ++ (jobs.reduceOption.flatMap (fun job =>
          (jobQueries job).filter (fun query => query.desc.isNone))).map noDescriptorRecord } := by
  induction jobs generalizing s with
  | nil => simp
  | cons j rest ih =>
    rw [List.foldl_cons, ih]
    cases j with
    | none => simp [describeJob, List.reduceOption_cons_of_none]
    | some j =>
      simp [describeJob, foldl_describeQuery, jobQueries, List.reduceOption_cons_of_some]

theorem filter_flatMap_eq {α β : Type} (p : β → Bool) (f : α → List β) (l : List α) :
    (l.flatMap f).filter p = l.flatMap (fun a => (f a).filter p) := by
  induction l with
  | nil => simp
  | cons a l ih => simp [List.flatMap_cons, ih]

theorem Describe_eq (e : Exporter) :
    Describe e = { e := e, ch := describeSpec e, log := describeLogSpec e } := by
  simp [Describe, foldl_describeJob, describeSpec, describeLogSpec, allQueries, registeredJobs,
    filter_flatMap_eq]

theorem reduceOption_map_map {α β : Type} (g : α → β) (l : List (Option α)) :
    (l.map (Option.map g)).reduceOption = l.reduceOption.map g := by
  induction l with
  | nil => simp
  | cons a l ih =>
    cases a with
    | none => simp [List.reduceOption_cons_of_none, ih]
    | some a => simp [List.reduceOption_cons_of_some, ih]

theorem describeSpec_withSamples (f : Query → List (List Metric)) (e : Exporter) :
    describeSpec (withSamples f e) = describeSpec e := by
  simp [describeSpec, withSamples, registeredJobs, jobQueries, reduceOption_map_map,
    List.flatMap_map, List.filterMap_map, Function.comp_def]

/-! ## Collect -/

theorem foldl_collectMetric (metrics : List Metric) (s : Scrape Metric) :
    metrics.foldl collectMetric s = { s with ch := s.ch ++ metrics } := by
  induction metrics generalizing s with
  | nil => simp
  | cons m rest ih => rw [List.foldl_cons, ih]; simp [collectMetric]

theorem foldl_collectMetrics (groups : List (List Metric)) (s : Scrape Metric) :
    groups.foldl collectMetrics s = { s with ch := s.ch ++ groups.flatten } := by
  induction groups generalizing s with
  | nil => simp
  | cons g rest ih => rw [List.foldl_cons, ih]; simp [collectMetrics, foldl_collectMetric]

theorem foldl_collectQuery (queries : List (Option Query)) (s : Scrape Metric) :
    queries.foldl collectQuery s =
      { s with ch := s.ch ++ (queries.reduceOption.flatMap (fun query => query.metrics.flatten)) } := by
  induction queries generalizing s with
  | nil => simp
  | cons q rest ih =>
    rw [List.foldl_cons, ih]
    cases q with
    | none => simp [collectQuery, List.reduceOption_cons_of_none]
    | some q => simp [collectQuery, foldl_collectMetrics, List.reduceOption_cons_of_some]

theorem foldl_collectJob (jobs : List (Option Job)) (s : Scrape Metric) :
    jobs.foldl collectJob s =
      { s with ch := s.ch ++ (jobs.reduceOption.flatMap
          (fun job => (jobQueries job).flatMap (fun query => query.metrics.flatten))) } := by
  induction jobs generalizing s with
  | nil => simp
  | cons j rest ih =>
    rw [List.foldl_cons, ih]
    cases j with
    | none => simp [collectJob, List.reduceOption_cons_of_none]
    | some j => simp [collectJob, foldl_collectQuery, jobQueries, List.reduceOption_cons_of_some]

theorem Collect_eq (e : Exporter) :
    Collect e = { e := e, ch := collectSpec e, log := [] } := by
  simp [Collect, foldl_collectJob, collectSpec, registeredJobs]

theorem length_collectSpec (e : Exporter) : (collectSpec e).length = storedSamples e := by
  simp [collectSpec, storedSamples, List.length_flatMap, List.length_flatten, Function.comp_def]

theorem reduceOption_filter_desc (queries : List (Option Query)) :
    (queries.filter (fun query => (query.bind (fun query => query.desc)).isSome)).reduceOption =
      queries.reduceOption.filter (fun query => query.desc.isSome) := by
  induction queries with
  | nil => simp
  | cons q rest ih =>
    cases q with
    | none => simp [List.reduceOption_cons_of_none, ih]
    | some q =>
      cases hd : q.desc <;>
        simp [List.filter_cons, hd, List.reduceOption_cons_of_some, ih]

theorem flatMap_filter_of_nil {α β : Type} (p : α → Bool) (f : α → List β) (l : List α)
    (h : ∀ a ∈ l, p a = false → f a = []) : (l.filter p).flatMap f = l.flatMap f := by
  induction l with
  | nil => simp
  | cons a l ih =>
    have ih2 := ih (fun b hb => h b (List.mem_cons_of_mem a hb))
    cases hp : p a with
    | false => simp [List.filter_cons, hp, ih2, h a (List.mem_cons_self a l) hp]
    | true => simp [List.filter_cons, hp, ih2]

theorem flatMap_congr_mem {α β : Type} (f g : α → List β) (l : List α)
    (h : ∀ a ∈ l, f a = g a) : l.flatMap f = l.flatMap g := by
  induction l with
  | nil => simp
  | cons a l ih =>
    simp [List.flatMap_cons, h a (List.mem_cons_self a l),
      ih (fun b hb => h b (List.mem_cons_of_mem a hb))]

theorem collectSpec_describedOnly (e : Exporter) (h : UndescribedEmpty e) :
    collectSpec (describedOnly e) = collectSpec e := by
  simp only [collectSpec, describedOnly, registeredJobs, jobQueries, reduceOption_map_map,
    List.flatMap_map, Function.comp_def, reduceOption_filter_desc]
  apply flatMap_congr_mem
  intro job hjob
  apply flatMap_filter_of_nil
  intro query hquery hp
  have hj : some job ∈ e.jobs := List.reduceOption_mem_iff.mp hjob
  have hq : some query ∈ job.Queries := List.reduceOption_mem_iff.mp hquery
  exact h job hj query hq (by simpa using hp)

theorem mem_collectSpec (e : Exporter) (metric : Metric) (h : metric ∈ collectSpec e) :
    ∃ job, some job ∈ e.jobs ∧ ∃ query, some query ∈ job.Queries ∧
      metric ∈ query.metrics.flatten := by
  simp only [collectSpec, registeredJobs, jobQueries, List.mem_flatMap] at h
  obtain ⟨job, hjob, query, hquery, hm⟩ := h
  exact ⟨job, List.reduceOption_mem_iff.mp hjob, query, List.reduceOption_mem_iff.mp hquery, hm⟩

theorem mem_describeSpec (e : Exporter) (job : Job) (query : Query) (desc : Desc)
    (hjob : some job ∈ e.jobs) (hquery : some query ∈ job.Queries) (hd : query.desc = some desc) :
    desc ∈ describeSpec e := by
  simp only [describeSpec, registeredJobs, jobQueries, List.mem_flatMap, List.mem_filterMap]
  exact ⟨job, List.reduceOption_mem_iff.mpr hjob, query, List.reduceOption_mem_iff.mpr hquery, hd⟩

/-! ## NewExporter -/

theorem dispatchJob_some (Init : List (String × String) → Job → InitResult)
    (queries : List (String × String)) (s : Startup) (job : Job) :
    dispatchJob Init queries s (some job) =
      { exp :=
          { jobs := s.exp.jobs ++
              (([job].filter (fun job => (Init queries job).err.isNone)).map
                (fun job => some (Init queries job).job)),
            cronScheduler :=
              { entries := s.exp.cronScheduler.entries ++
                  ((([job].filter (fun job => (Init queries job).err.isNone)).map
                    (fun job => (Init queries job).job)).filterMap
                      (fun job => job.CronSchedule.schedule.map (fun schedule => (schedule, job)))),
                running := s.exp.cronScheduler.running } },
        inits := s.inits ++ [job],
        runners := s.runners ++
          ((([job].filter (fun job => (Init queries job).err.isNone)).map
            (fun job => (Init queries job).job)).filter
              (fun job => job.CronSchedule.schedule.isNone)),
        log := s.log ++ [startupRecord Init queries job] } := by
  cases he : (Init queries job).err with
  | some err => simp [dispatchJob, startupRecord, he]
  | none =>
    cases hs : (Init queries job).job.CronSchedule.schedule with
    | some schedule => simp [dispatchJob, startupRecord, he, hs, Cron.Schedule]
    | none => simp [dispatchJob, startupRecord, he, hs]

theorem foldl_dispatchJob (Init : List (String × String) → Job → InitResult)
    (queries : List (String × String)) (jobs : List (Option Job)) (s : Startup) :
    jobs.foldl (dispatchJob Init queries) s =
      { exp :=
          { jobs := s.exp.jobs ++
              ((jobs.reduceOption.filter (fun job => (Init queries job).err.isNone)).map
                (fun job => some (Init queries job).job)),
            cronScheduler :=
              { entries := s.exp.cronScheduler.entries ++
                  (((jobs.reduceOption.filter (fun job => (Init queries job).err.isNone)).map
                    (fun job => (Init queries job).job)).filterMap
                      (fun job => job.CronSchedule.schedule.map (fun schedule => (schedule, job)))),
                running := s.exp.cronScheduler.running } },
        inits := s.inits ++ jobs.reduceOption,
        runners := s.runners ++
          (((jobs.reduceOption.filter (fun job => (Init queries job).err.isNone)).map
            (fun job => (Init queries job).job)).filter
              (fun job => job.CronSchedule.schedule.isNone)),
        log := s.log ++ jobs.reduceOption.map (startupRecord Init queries) } := by
  induction jobs generalizing s with
  | nil => simp
  | cons j rest ih =>
    rw [List.foldl_cons, ih]
    cases j with
    | none => simp [dispatchJob, List.reduceOption_cons_of_none]
    | some j =>
      rw [dispatchJob_some, List.reduceOption_cons_of_some,
        show j :: rest.reduceOption = [j] ++ rest.reduceOption from rfl]
      simp only [List.filter_append, List.map_append, List.filterMap_append, List.append_assoc,
        List.map_cons, List.map_nil]

theorem NewExporter_ok (Read : String → Except String Config)
    (Init : List (String × String) → Job → InitResult) (configFile : String) (cfg : Config)
    (h : Read (configPath configFile) = Except.ok cfg) :
    NewExporter Read Init configFile =
      { exp := some
          { jobs := (initOk Init cfg).map (fun job => some (Init cfg.Queries job).job),
            cronScheduler :=
              { entries := ((initOk Init cfg).map (fun job => (Init cfg.Queries job).job)).filterMap
                  (fun job => job.CronSchedule.schedule.map (fun schedule => (schedule, job))),
                running := true } },
        err := none,
        inits := cfg.Jobs.reduceOption,
        runners := ((initOk Init cfg).map (fun job => (Init cfg.Queries job).job)).filter
          (fun job => job.CronSchedule.schedule.isNone),
        log := cfg.Jobs.reduceOption.map (startupRecord Init cfg.Queries) } := by
  simp [NewExporter, h, foldl_dispatchJob, Cron.Start, initOk]

theorem NewExporter_error (Read : String → Except String Config)
    (Init : List (String × String) → Job → InitResult) (configFile : String) (err : String)
    (h : Read (configPath configFile) = Except.error err) :
    NewExporter Read Init configFile =
      { exp := none, err := some err, inits := [], runners := [], log := [] } := by
  simp [NewExporter, h]

theorem reduceOption_filter_sublist {α : Type} (p : α → Bool) (l : List (Option α)) :
    ((l.reduceOption.filter p).map some).Sublist l := by
  induction l with
  | nil => simp
  | cons a l ih =>
    cases a with
    | none =>
      rw [List.reduceOption_cons_of_none]
      exact List.Sublist.cons none ih
    | some a =>
      rw [List.reduceOption_cons_of_some, List.filter_cons]
      split
      · exact List.Sublist.cons₂ (some a) ih
      · exact List.Sublist.cons (some a) ih

theorem reduceOption_map_some {α : Type} (l : List α) : (l.map some).reduceOption = l := by
  induction l with
  | nil => simp
  | cons a l ih => simp [List.reduceOption_cons_of_some, ih]

theorem reduceOption_map_some_comp {α β : Type} (g : α → β) (l : List α) :
    (l.map (fun a => some (g a))).reduceOption = l.map g := by
  induction l with
  | nil => simp
  | cons a l ih => simp [List.reduceOption_cons_of_some, ih]

theorem reduceOption_filter_isSome {α : Type} (l : List (Option α)) :
    (l.filter (fun a => a.isSome)).reduceOption = l.reduceOption := by
  induction l with
  | nil => simp
  | cons a l ih =>
    cases a with
    | none => simp [List.reduceOption_cons_of_none, ih]
    | some a => simp [List.filter_cons, List.reduceOption_cons_of_some, ih]

theorem length_reduceOption {α : Type} [DecidableEq α] (l : List (Option α)) :
    l.reduceOption.length = l.length - l.count none := by
  induction l with
  | nil => simp
  | cons a l ih =>
    have hle : l.count none ≤ l.length := List.count_le_length none l
    cases a with
    | none =>
      rw [List.reduceOption_cons_of_none, ih]
      simp
    | some a =>
      rw [List.reduceOption_cons_of_some, List.length_cons, ih, List.length_cons,
        List.count_cons_of_ne (by simp)]
      omega

theorem initOk_dropNil (Init : List (String × String) → Job → InitResult) (cfg : Config) :
    initOk Init (dropNil cfg) = initOk Init cfg := by
  simp [initOk, dropNil, reduceOption_filter_isSome]

theorem initOk_keepInitOk (Init : List (String × String) → Job → InitResult) (cfg : Config) :
    initOk Init (keepInitOk Init cfg) = initOk Init cfg := by
  simp [initOk, keepInitOk, reduceOption_map_some]

/-! ## Claims on Describe and Collect -/

/-- Claim C1: `Describe` emits exactly the descriptors of the queries that have one, in
job-then-query order: the sequence sent on the channel is the concatenation, over the jobs in
registry order, of each job's queries in query order, keeping the descriptor of a query that
has one and dropping a query that has none. -/
theorem Describe_emits_descriptors (e : Exporter) :
    (Describe e).ch =
      (registeredJobs e).flatMap (fun job =>
        (jobQueries job).filterMap (fun query => query.desc)) := by
  rw [Describe_eq]; rfl

/-- Claim C2: `Collect` emits every stored sample of every query exactly once, in job-then-query
order: the sequence sent on the channel is the concatenation, over jobs and queries, of the
groups of samples of the query flattened group by group; a query without samples contributes
nothing; and the number of emissions is the total number of stored samples. -/
theorem Collect_emits_samples (e : Exporter) :
    (Collect e).ch =
        (registeredJobs e).flatMap (fun job =>
          (jobQueries job).flatMap (fun query => query.metrics.flatten)) ∧
      (∀ (s : Scrape Metric) (name : String) (desc : Option Desc),
        collectQuery s (some { Name := name, desc := desc, metrics := [] }) = s) ∧
      (Collect e).ch.length = storedSamples e := by
  refine ⟨by rw [Collect_eq]; rfl, fun s name desc => rfl, ?_⟩
  rw [Collect_eq]; exact length_collectSpec e

/-- Claim C3 fails as stated: the registry whose only query has no descriptor and one stored sample
makes `Describe` emit nothing while `Collect` emits that sample. -/
theorem Collect_emits_undescribed :
    (Describe orphanExporter).ch = [] ∧ (Collect orphanExporter).ch = [rowsMetric] ∧
      ¬ CollectWithinDescribe orphanExporter := by
  have hd : (Describe orphanExporter).ch = [] := by decide
  have hc : (Collect orphanExporter).ch = [rowsMetric] := by decide
  refine ⟨hd, hc, ?_⟩
  intro h
  obtain ⟨job, -, query, -, -, desc, -, hmem⟩ := h.1 rowsMetric (by rw [hc]; simp)
  rw [hd] at hmem
  simp at hmem

/-- Claim C3 (amended): in a registry where every query without descriptor holds no sample, every
sample `Collect` emits comes from a query whose descriptor `Describe` emits, and `Collect`
emits what it emits on the registry without the queries that have no descriptor. -/
theorem Collect_within_Describe (e : Exporter) (h : UndescribedEmpty e) :
    CollectWithinDescribe e := by
  refine ⟨?_, ?_⟩
  · intro metric hm
    rw [Collect_eq] at hm
    obtain ⟨job, hjob, query, hquery, hmq⟩ := mem_collectSpec e metric hm
    refine ⟨job, hjob, query, hquery, hmq, ?_⟩
    cases hd : query.desc with
    | none =>
      have := h job hjob query hquery hd
      rw [this] at hmq
      simp at hmq
    | some desc =>
      refine ⟨desc, rfl, ?_⟩
      rw [Describe_eq]
      exact mem_describeSpec e job query desc hjob hquery hd
  · rw [Collect_eq, Collect_eq]
    exact (collectSpec_describedOnly e h).symm

/-- Witness of claim C3 (amended) on a registry with a described query holding samples, a nil query
and a query without descriptor and without samples. -/
theorem Collect_within_Describe_witness :
    UndescribedEmpty tidyExporter ∧ CollectWithinDescribe tidyExporter :=
  have h : UndescribedEmpty tidyExporter := by
    intro job hjob query hquery hd
    simp [tidyExporter] at hjob
    subst hjob
    simp [jobA] at hquery
    rcases hquery with rfl | rfl
    · simp [upQuery] at hd
    · rfl
  ⟨h, Collect_within_Describe tidyExporter h⟩

/-- Claim C8: one `Describe` call writes exactly one error record per occurrence of a query without
descriptor: the records are, in job-then-query order, the records naming the queries of the
registered jobs whose descriptor is absent; their number is the number of such queries; each
is an error record naming such a query; and a registry whose queries all have a descriptor
gets no record. -/
theorem Describe_logs_missing (e : Exporter) :
    (Describe e).log =
        ((allQueries e).filter (fun query => query.desc.isNone)).map noDescriptorRecord ∧
      (Describe e).log.length = (allQueries e).countP (fun query => query.desc.isNone) ∧
      (∀ record ∈ (Describe e).log, ∃ query ∈ allQueries e, query.desc = none ∧
        record.level = Level.Error ∧
        record.keyvals = [("msg", LogValue.str "Query has no descriptor"),
                          ("query", LogValue.str query.Name)]) ∧
      ((allQueries e).all (fun query => query.desc.isSome) = true → (Describe e).log = []) := by
  rw [Describe_eq]
  refine ⟨rfl, ?_, ?_, ?_⟩
  · simp [describeLogSpec, List.countP_eq_length_filter]
  · intro record hr
    simp only [describeLogSpec, List.mem_map, List.mem_filter] at hr
    obtain ⟨query, ⟨hq, hn⟩, rfl⟩ := hr
    exact ⟨query, hq, by simpa using hn, rfl, rfl⟩
  · intro hall
    simp only [describeLogSpec, List.map_eq_nil_iff, List.filter_eq_nil_iff]
    intro query hq
    have := List.all_eq_true.mp hall query hq
    cases hd : query.desc <;> simp_all

/-- Claim C9: `Describe` is idempotent and free of side effects on the exporter state: the call
leaves the receiver (jobs, queries, descriptors, samples, scheduler) as it was, a second call
emits the same descriptor sequence as the first, and the emitted sequence is the same
whatever samples the queries store. -/
theorem Describe_idempotent (e : Exporter) (f : Query → List (List Metric)) :
    (Describe e).e = e ∧
      (Describe (Describe e).e).ch = (Describe e).ch ∧
      (Describe (withSamples f e)).ch = (Describe e).ch := by
  refine ⟨by rw [Describe_eq], by simp only [Describe_eq], ?_⟩
  rw [Describe_eq, Describe_eq]
  exact describeSpec_withSamples f e

/-! ## Claims on NewExporter -/

/-- Claim C4: when the configuration is read successfully, `NewExporter` returns an exporter and a
nil error, and the job registry is exactly the subsequence, in configuration order, of the
configured jobs that are not nil and whose `Init` returned no error (each as `Init` left it):
a job is kept if and only if it is a configured job whose `Init` succeeds. -/
theorem NewExporter_registry (Read : String → Except String Config)
    (Init : List (String × String) → Job → InitResult) (configFile : String) (cfg : Config)
    (h : Read (configPath configFile) = Except.ok cfg) :
    ∃ exp, (NewExporter Read Init configFile).exp = some exp ∧
      (NewExporter Read Init configFile).err = none ∧
      exp.jobs =
        (cfg.Jobs.reduceOption.filter (fun job => (Init cfg.Queries job).err.isNone)).map
          (fun job => some (Init cfg.Queries job).job) ∧
      ((cfg.Jobs.reduceOption.filter
        (fun job => (Init cfg.Queries job).err.isNone)).map some).Sublist cfg.Jobs ∧
      (∀ job, job ∈ cfg.Jobs.reduceOption.filter (fun job => (Init cfg.Queries job).err.isNone) ↔
        some job ∈ cfg.Jobs ∧ (Init cfg.Queries job).err = none) := by
  rw [NewExporter_ok Read Init configFile cfg h]
  refine ⟨_, rfl, rfl, rfl, reduceOption_filter_sublist _ _, ?_⟩
  intro job
  simp [List.mem_filter, List.reduceOption_mem_iff]

/-- Witness of claim C4: the example configuration holds an interval job, a nil entry, a job whose
`Init` fails and a cron job; the registry is the interval job followed by the cron job. -/
theorem NewExporter_registry_witness :
    exampleRead (configPath "") = Except.ok exampleConfig ∧
      ∃ exp, (NewExporter exampleRead exampleInit "").exp = some exp ∧
        exp.jobs = [some jobA, some jobB] := by
  have h : exampleRead (configPath "") = Except.ok exampleConfig := by
    simp [exampleRead, configPath]
  obtain ⟨exp, hexp, -, hjobs, -, -⟩ := NewExporter_registry exampleRead exampleInit "" exampleConfig h
  refine ⟨h, exp, hexp, ?_⟩
  rw [hjobs]
  decide

/-- Claim C5: `NewExporter` returns an error if and only if reading the configuration fails: when
`Read` fails the result is no exporter and that same error, with no `Init` call, no runner
started and nothing logged; when `Read` succeeds the result is an exporter and a nil error,
whatever `Init` returns for the jobs. -/
theorem NewExporter_error_iff (Read : String → Except String Config)
    (Init : List (String × String) → Job → InitResult) (configFile : String) :
    ((NewExporter Read Init configFile).err.isSome = true ↔
        ∃ err, Read (configPath configFile) = Except.error err) ∧
      (∀ err, Read (configPath configFile) = Except.error err →
        NewExporter Read Init configFile =
          { exp := none, err := some err, inits := [], runners := [], log := [] }) ∧
      (∀ cfg, Read (configPath configFile) = Except.ok cfg →
        (NewExporter Read Init configFile).err = none ∧
          ∃ exp, (NewExporter Read Init configFile).exp = some exp) := by
  refine ⟨?_, fun err h => NewExporter_error Read Init configFile err h, ?_⟩
  · cases h : Read (configPath configFile) with
    | error err => simp [NewExporter_error Read Init configFile err h]
    | ok cfg => simp [NewExporter_ok Read Init configFile cfg h]
  · intro cfg h
    rw [NewExporter_ok Read Init configFile cfg h]
    exact ⟨rfl, _, rfl⟩

/-- Witness of claim C5: an unreadable path gives the reader's error and no effect, and the default
path gives a nil error although the `Init` of one job fails. -/
theorem NewExporter_error_iff_witness :
    NewExporter exampleRead exampleInit "missing.yml" =
        { exp := none, err := some "no such file", inits := [], runners := [], log := [] } ∧
      (NewExporter exampleRead exampleInit "").err = none :=
  ⟨(NewExporter_error_iff exampleRead exampleInit "missing.yml").2.1 "no such file"
      (by simp [exampleRead, configPath]),
   ((NewExporter_error_iff exampleRead exampleInit "").2.2 exampleConfig
      (by simp [exampleRead, configPath])).1⟩

/-- Claim C6: when the configuration is read successfully, every job of the registry is dispatched
by exactly one strategy chosen by its cron schedule: the scheduler entries are, in order, the
registry jobs that declare a cron schedule, each under that schedule; the started interval
runners are, in order, the registry jobs that declare none; so a job with a cron schedule is
scheduled and gets no runner whatever its interval, a job without gets a runner and no entry,
and the dispatch is the one of the configuration without the nil and failing entries. -/
theorem NewExporter_dispatch (Read : String → Except String Config)
    (Init : List (String × String) → Job → InitResult) (configFile : String) (cfg : Config)
    (h : Read (configPath configFile) = Except.ok cfg) :
    ∃ exp, (NewExporter Read Init configFile).exp = some exp ∧
      exp.cronScheduler.entries =
        (registeredJobs exp).filterMap
          (fun job => job.CronSchedule.schedule.map (fun schedule => (schedule, job))) ∧
      (NewExporter Read Init configFile).runners =
        (registeredJobs exp).filter (fun job => job.CronSchedule.schedule.isNone) ∧
      exp.cronScheduler.entries.length + (NewExporter Read Init configFile).runners.length =
        (registeredJobs exp).length ∧
      (∀ job ∈ registeredJobs exp,
        (∀ schedule, job.CronSchedule.schedule = some schedule →
          (schedule, job) ∈ exp.cronScheduler.entries ∧
            job ∉ (NewExporter Read Init configFile).runners) ∧
        (job.CronSchedule.schedule = none →
          job ∈ (NewExporter Read Init configFile).runners ∧
            ∀ schedule, (schedule, job) ∉ exp.cronScheduler.entries)) ∧
      (NewExporter (fun _ => Except.ok (keepInitOk Init cfg)) Init configFile).exp = some exp ∧
      (NewExporter (fun _ => Except.ok (keepInitOk Init cfg)) Init configFile).runners =
        (NewExporter Read Init configFile).runners := by
  rw [NewExporter_ok Read Init configFile cfg h,
    NewExporter_ok (fun _ => Except.ok (keepInitOk Init cfg)) Init configFile _ rfl,
    initOk_keepInitOk]
  refine ⟨_, rfl, ?_, ?_, ?_, ?_, rfl, rfl⟩
  · simp [registeredJobs, reduceOption_map_some_comp]
  · simp [registeredJobs, reduceOption_map_some_comp]
  · simp only [registeredJobs, reduceOption_map_some_comp]
    generalize (initOk Init cfg).map (fun job => (Init cfg.Queries job).job) = reg
    induction reg with
    | nil => simp
    | cons job reg ih =>
      cases hs : job.CronSchedule.schedule <;>
        simp [List.filterMap_cons, List.filter_cons, hs] at ih ⊢ <;> omega
  · simp only [registeredJobs, reduceOption_map_some_comp]
    generalize (initOk Init cfg).map (fun job => (Init cfg.Queries job).job) = reg
    intro job hjob
    refine ⟨fun schedule hs => ⟨?_, ?_⟩, fun hs => ⟨?_, fun schedule => ?_⟩⟩
    · exact List.mem_filterMap.mpr ⟨job, hjob, by simp [hs]⟩
    · simp [List.mem_filter, hs]
    · simp [List.mem_filter, hs, hjob]
    · intro hmem
      obtain ⟨other, -, hother⟩ := List.mem_filterMap.mp hmem
      cases ho : other.CronSchedule.schedule with
      | none => simp [ho] at hother
      | some sch =>
        simp [ho] at hother
        obtain ⟨-, rfl⟩ := hother
        rw [hs] at ho
        cases ho

/-- Witness of claim C6: of the example configuration, the cron job is the one scheduler entry and
the interval job the one runner. -/
theorem NewExporter_dispatch_witness :
    exampleRead (configPath "") = Except.ok exampleConfig ∧
      ∃ exp, (NewExporter exampleRead exampleInit "").exp = some exp ∧
        exp.cronScheduler.entries = [({ expr := "*/5 * * * * *" }, jobB)] ∧
        (NewExporter exampleRead exampleInit "").runners = [jobA] := by
  have h : exampleRead (configPath "") = Except.ok exampleConfig := by
    simp [exampleRead, configPath]
  obtain ⟨exp, hexp, -⟩ := NewExporter_dispatch exampleRead exampleInit "" exampleConfig h
  refine ⟨h, exp, hexp, ?_, by decide⟩
  have hd : (NewExporter exampleRead exampleInit "").exp =
      some { jobs := [some jobA, some jobB],
             cronScheduler := { entries := [({ expr := "*/5 * * * * *" }, jobB)],
                                running := true } } := by decide
  rw [hd] at hexp
  cases hexp
  rfl

/-- Claim C7 fails as stated: on a configuration whose only job entry is nil, `NewExporter` writes
no record at all, so no warning is logged for the nil entry. -/
theorem NewExporter_nil_silent :
    nilConfig.Jobs.count none = 1 ∧
      (NewExporter (fun _ => Except.ok nilConfig) exampleInit "").log = [] ∧
      ¬ ∃ record ∈ (NewExporter (fun _ => Except.ok nilConfig) exampleInit "").log,
        record.level = Level.Warn := by
  have hl : (NewExporter (fun _ => Except.ok nilConfig) exampleInit "").log = [] := by decide
  refine ⟨by decide, hl, ?_⟩
  rw [hl]
  simp

/-- Claim C7 (amended): a nil job entry is skipped without any effect: the loop body leaves the
construction state as it is (no `Init` call, no registration, no dispatch, no record), and
`NewExporter` returns and does exactly what it does on the configuration without its nil
entries; when the configuration is read, `Init` is called on exactly the entries that are not
nil, in configuration order, and the records written are exactly one per such entry, in that
order: the warning naming the job and the error when its `Init` fails, the record of its
scheduling or of its start otherwise. -/
theorem NewExporter_skips_nil (Read : String → Except String Config)
    (Init : List (String × String) → Job → InitResult) (configFile : String) :
    (∀ (queries : List (String × String)) (s : Startup), dispatchJob Init queries s none = s) ∧
      NewExporter (fun path => (Read path).map dropNil) Init configFile =
        NewExporter Read Init configFile ∧
      (NewExporter Read Init configFile).log.length =
        (NewExporter Read Init configFile).inits.length ∧
      (∀ cfg, Read (configPath configFile) = Except.ok cfg →
        (NewExporter Read Init configFile).inits = cfg.Jobs.reduceOption ∧
        (NewExporter Read Init configFile).log =
          cfg.Jobs.reduceOption.map (fun job =>
            match (Init cfg.Queries job).err with
            | some err =>
              { level := Level.Warn,
                keyvals := [("msg", LogValue.str "Skipping job. Failed to initialize"),
                            ("err", LogValue.str err),
                            ("job", LogValue.str (Init cfg.Queries job).job.Name)] }
            | none =>
              match (Init cfg.Queries job).job.CronSchedule.schedule with
              | some _ => scheduledRecord (Init cfg.Queries job).job
              | none => startedRecord (Init cfg.Queries job).job) ∧
        (NewExporter Read Init configFile).log.length =
          cfg.Jobs.length - cfg.Jobs.count none) := by
  refine ⟨fun queries s => rfl, ?_, ?_, ?_⟩
  · cases h : Read (configPath configFile) with
    | error err =>
      rw [NewExporter_error Read Init configFile err h,
        NewExporter_error _ Init configFile err (by simp [h, Except.map])]
    | ok cfg =>
      rw [NewExporter_ok Read Init configFile cfg h,
        NewExporter_ok _ Init configFile (dropNil cfg) (by simp [h, Except.map]),
        initOk_dropNil]
      simp [dropNil, reduceOption_filter_isSome]
  · cases h : Read (configPath configFile) with
    | error err => simp [NewExporter_error Read Init configFile err h]
    | ok cfg => simp [NewExporter_ok Read Init configFile cfg h]
  · intro cfg h
    rw [NewExporter_ok Read Init configFile cfg h]
    refine ⟨rfl, ?_, ?_⟩
    · apply List.map_congr_left
      intro job _
      simp only [startupRecord, skippingRecord]
    · simp only [List.length_map]
      exact length_reduceOption cfg.Jobs

/-- Witness of claim C7 (amended): the example configuration has four entries, one of them
nil; `Init` is called on the three others and three records are written, none for the nil
entry. -/
theorem NewExporter_skips_nil_witness :
    exampleRead (configPath "") = Except.ok exampleConfig ∧
      exampleConfig.Jobs = [some jobA, none, some jobC, some jobB] ∧
      (NewExporter exampleRead exampleInit "").inits = [jobA, jobC, jobB] ∧
      (NewExporter exampleRead exampleInit "").log =
        [startedRecord jobA, skippingRecord "unknown query" jobC, scheduledRecord jobB] := by
  have h : exampleRead (configPath "") = Except.ok exampleConfig := by
    simp [exampleRead, configPath]
  obtain ⟨hinits, hlog, -⟩ := (NewExporter_skips_nil exampleRead exampleInit "").2.2.2 exampleConfig h
  refine ⟨h, rfl, ?_, ?_⟩
  · rw [hinits]; decide
  · rw [hlog]; decide

end SqlExporter
